import Mathlib

/-!
Verification of the TaskManager repository (src/main.rs): the in-memory
task store with find/remove/persist semantics, and the console controller
dispatch loop.  Rust `Vec<Task>` is modelled as `List Task`, machine I/O
outcomes as an explicit oracle (`Env`), the file system as an association
list from paths to file contents, and panics / `unwrap` aborts as the
`Except.error` case of the step function.
-/

namespace Main

/-- The `Priority` enum of src/main.rs (the spec calls the `None` variant
`Unset`): a sentinel plus four real levels. -/
inductive Priority where
  | None
  | Low
  | Medium
  | High
  | VeryHigh
  deriving DecidableEq, Repr

/-- `Priority::to_string` of src/main.rs (display labels only; serde uses
the variant names instead). -/
def Priority.to_string : Priority → String
  | Priority.Low => "Low"
  | Priority.Medium => "Medium"
  | Priority.High => "High"
  | Priority.VeryHigh => "Very High"
  | Priority.None => ""

/-- The `Task` struct of src/main.rs.  `DateTime<Local>` is modelled as an
abstract instant (`Int`): the claims only need that the clock value taken at
construction is carried around and persisted losslessly. -/
structure Task where
  name : String
  description : String
  priority : Priority
  add_time : Int
  deriving DecidableEq, Repr

/-- `Task::new` of src/main.rs; `Local::now()` is the `now` argument. -/
def Task.new (name : String) (description : String) (priority : Priority)
    (now : Int) : Task :=
  { name := name, description := description, priority := priority,
    add_time := now }

/-- Modelled from the spec: JSON values stand in for the bytes that the
external serde_json library produces and consumes (the spec delegates
"JSON encoding/decoding mechanics ... to a serialization library, used only
as a black box producing/consuming bytes from a known schema"). -/
inductive Json where
  | str (s : String)
  | num (n : Int)
  | arr (items : List Json)
  | obj (fields : List (String × Json))

/-- Modelled from the spec: serde's derived encoding of a unit enum variant
is the variant's name. -/
def serializePriority : Priority → Json
  | Priority.None => Json.str "None"
  | Priority.Low => Json.str "Low"
  | Priority.Medium => Json.str "Medium"
  | Priority.High => Json.str "High"
  | Priority.VeryHigh => Json.str "VeryHigh"

/-- Modelled from the spec: serde's derived decoding of the `Priority`
enum; any other value is a parse error. -/
def deserializePriority : Json → Except String Priority
  | Json.str "None" => Except.ok Priority.None
  | Json.str "Low" => Except.ok Priority.Low
  | Json.str "Medium" => Except.ok Priority.Medium
  | Json.str "High" => Except.ok Priority.High
  | Json.str "VeryHigh" => Except.ok Priority.VeryHigh
  | _ => Except.error "invalid priority"

/-- Modelled from the spec: serde's derived encoding of `Task` as an object
with the schema's field names; the timestamp is persisted losslessly. -/
def serializeTask (t : Task) : Json :=
  Json.obj [("name", Json.str t.name),
            ("description", Json.str t.description),
            ("priority", serializePriority t.priority),
            ("add_time", Json.num t.add_time)]

/-- First value of a field in a JSON object, a parse error otherwise. -/
def jsonField (fields : List (String × Json)) (key : String) :
    Except String Json :=
  match fields.lookup key with
  | some v => Except.ok v
  | none => Except.error ("missing field " ++ key)

/-- A JSON string, or a parse error. -/
def jsonAsString : Json → Except String String
  | Json.str s => Except.ok s
  | _ => Except.error "expected string"

/-- A JSON number, or a parse error. -/
def jsonAsInt : Json → Except String Int
  | Json.num n => Except.ok n
  | _ => Except.error "expected number"

/-- Modelled from the spec: serde's derived decoding of `Task`. -/
def deserializeTask (j : Json) : Except String Task :=
  match j with
  | Json.obj fields => do
    let name ← jsonAsString (← jsonField fields "name")
    let description ← jsonAsString (← jsonField fields "description")
    let priority ← deserializePriority (← jsonField fields "priority")
    let add_time ← jsonAsInt (← jsonField fields "add_time")
    pure { name := name, description := description, priority := priority,
           add_time := add_time }
  | _ => Except.error "expected object"

/-- Modelled from the spec: `serialize()` encodes the full ordered sequence
of tasks (what `serde_json::to_writer(&file, &self.tasks)` writes). -/
def serialize (tasks : List Task) : Json :=
  Json.arr (tasks.map serializeTask)

/-- Modelled from the spec: `deserialize(bytes)` is the inverse of
`serialize`, failing with a parse error on malformed input (what
`serde_json::from_reader` produces). -/
def deserialize (j : Json) : Except String (List Task) :=
  match j with
  | Json.arr items => items.mapM deserializeTask
  | _ => Except.error "expected array"

theorem deserializePriority_serializePriority (p : Priority) :
    deserializePriority (serializePriority p) = Except.ok p := by
  cases p <;> rfl

theorem deserializeTask_serializeTask (t : Task) :
    deserializeTask (serializeTask t) = Except.ok t := by
  cases t with
  | mk name description priority add_time => cases priority <;> rfl

theorem mapM_deserializeTask_map_serializeTask (l : List Task) :
    List.mapM deserializeTask (l.map serializeTask) = Except.ok l := by
  induction l with
  | nil => rfl
  | cons t rest ih =>
    rw [List.map_cons, List.mapM_cons, deserializeTask_serializeTask, ih]
    rfl

/-- C1: for every sequence of valid Task values (all priorities real, any
name, description and timestamp) deserializing the serialization yields the
original sequence, all fields preserved exactly. -/
theorem deserialize_serialize_roundtrip (tasks : List Task)
    (hvalid : ∀ t ∈ tasks, t.priority ≠ Priority.None) :
    deserialize (serialize tasks) = Except.ok tasks := by
  clear hvalid
  exact mapM_deserializeTask_map_serializeTask tasks

/-- Witness for C1 at a concrete two-task store. -/
theorem deserialize_serialize_roundtrip_witness :
    deserialize (serialize [Task.new "Bread" "Buy bread" Priority.Low 5,
                            Task.new "Milk" "2%" Priority.Medium 6]) =
      Except.ok [Task.new "Bread" "Buy bread" Priority.Low 5,
                 Task.new "Milk" "2%" Priority.Medium 6] :=
  deserialize_serialize_roundtrip _ (by decide)

/-- The file system as the store/load operations see it: paths mapped to file
contents, first binding wins (`Path::exists` is a successful lookup). -/
abbrev FS := List (String × Json)

/-- The oracle for machine I/O outcomes that the source leaves to the
operating system: whether `File::create` fails, whether the
`serde_json::to_writer` write fails (and what bytes it leaves behind when it
does), whether `File::open` fails, and what `Local::now()` reads. -/
structure Env where
  createFails : Bool
  writeFails : Bool
  junk : Json
  openFails : Bool
  now : Int

/-- Rust `str::trim`: the string without leading and trailing whitespace,
modelled structurally on the character list so that it is kernel
computable. -/
def rust_trim (s : String) : String :=
  String.mk
    (((s.data.dropWhile Char.isWhitespace).reverse.dropWhile
        Char.isWhitespace).reverse)

/-- Rust `str::to_lowercase`, modelled as the character-wise lowercase map
(the claims never involve characters where Unicode case mapping differs
from the character-wise one). -/
def rust_to_lowercase (s : String) : String :=
  String.mk (s.data.map Char.toLower)

/-- The `TaskManager` struct of src/main.rs: `tasks: Vec<Task>`. -/
structure TaskManager where
  tasks : List Task
  deriving DecidableEq

/-- `TaskManager::new` of src/main.rs. -/
def TaskManager.new : TaskManager := { tasks := [] }

/-- `TaskManager::push` of src/main.rs. -/
def TaskManager.push (tm : TaskManager) (task : Task) : TaskManager :=
  { tasks := tm.tasks ++ [task] }

/-- `TaskManager::pop` of src/main.rs: `Vec::pop` removes and returns the
last element.  The pair is (returned value, manager afterwards). -/
def TaskManager.pop (tm : TaskManager) : Option Task × TaskManager :=
  (tm.tasks.getLast?, { tasks := tm.tasks.dropLast })

/-- `TaskManager::find` of src/main.rs: first index whose task's lowercased
name equals the lowercased query. -/
def TaskManager.find (tm : TaskManager) (name : String) : Option Nat :=
  tm.tasks.findIdx?
    (fun task => rust_to_lowercase task.name == rust_to_lowercase name)

/-- `TaskManager::remove` of src/main.rs: `Vec::remove(index)` at the found
index (in-bounds whenever `find` succeeds; `Vec::remove` would panic
otherwise, modelled as an error). -/
def TaskManager.remove (tm : TaskManager) (name : String) :
    Except String Task × TaskManager :=
  match tm.find name with
  | some index =>
    match tm.tasks[index]? with
    | some task => (Except.ok task, { tasks := tm.tasks.eraseIdx index })
    | none => (Except.error "index out of bounds", tm)
  | none => (Except.error (s!"Task {name} not found"), tm)

/-- `TaskManager::clear` of src/main.rs. -/
def TaskManager.clear (tm : TaskManager) : TaskManager := { tasks := [] }

theorem find_spec (tm : TaskManager) (name : String) :
    (∀ i, tm.find name = some i ↔
      ∃ h : i < tm.tasks.length,
        (rust_to_lowercase tm.tasks[i].name = rust_to_lowercase name ∧
          ∀ j (hj : j < tm.tasks.length), j < i →
            rust_to_lowercase tm.tasks[j].name ≠ rust_to_lowercase name)) ∧
    (tm.find name = none ↔
      ∀ t ∈ tm.tasks,
        rust_to_lowercase t.name ≠ rust_to_lowercase name) := by
  constructor
  · intro i
    rw [TaskManager.find, List.findIdx?_eq_some_iff_getElem]
    constructor
    · rintro ⟨h, hp, hlt⟩
      refine ⟨h, by simpa using hp, ?_⟩
      intro j hj hji
      have := hlt j hji
      simpa using this
    · rintro ⟨h, hp, hlt⟩
      refine ⟨h, by simpa using hp, ?_⟩
      intro j hji
      have := hlt j (Nat.lt_trans hji h) hji
      simpa using this
  · rw [TaskManager.find, List.findIdx?_eq_none_iff]
    constructor
    · intro h t ht
      have := h t ht
      simpa using this
    · intro h t ht
      simpa using h t ht

/-- C5: `find` returns the index of the first task in insertion order whose
name matches the query case-insensitively, and `none` when no task
matches. -/
theorem find_first_case_insensitive (tm : TaskManager) (name : String) :
    (∀ i, tm.find name = some i ↔
      ∃ h : i < tm.tasks.length,
        (rust_to_lowercase tm.tasks[i].name = rust_to_lowercase name ∧
          ∀ j (hj : j < tm.tasks.length), j < i →
            rust_to_lowercase tm.tasks[j].name ≠ rust_to_lowercase name)) ∧
    (tm.find name = none ↔
      ∀ t ∈ tm.tasks,
        rust_to_lowercase t.name ≠ rust_to_lowercase name) :=
  find_spec tm name

theorem remove_spec (tm : TaskManager) (name : String) :
    ((∀ t ∈ tm.tasks, rust_to_lowercase t.name ≠ rust_to_lowercase name) →
      tm.remove name = (Except.error (s!"Task {name} not found"), tm)) ∧
    (∀ i (h : i < tm.tasks.length),
      rust_to_lowercase tm.tasks[i].name = rust_to_lowercase name →
      (∀ j (hj : j < tm.tasks.length), j < i →
        rust_to_lowercase tm.tasks[j].name ≠ rust_to_lowercase name) →
      tm.remove name =
        (Except.ok tm.tasks[i], { tasks := tm.tasks.eraseIdx i })) := by
  constructor
  · intro hnone
    have hfind : tm.find name = none :=
      (find_spec tm name).2.mpr hnone
    rw [TaskManager.remove, hfind]
  · intro i h hp hlt
    have hfind : tm.find name = some i :=
      ((find_spec tm name).1 i).mpr ⟨h, hp, hlt⟩
    rw [TaskManager.remove, hfind]
    simp [List.getElem?_eq_getElem h]

/-- C2: `remove` removes and returns exactly the first task matching the
name case-insensitively; when none matches it returns the not-found error
carrying the name and leaves the task sequence unchanged. -/
theorem remove_first_or_not_found (tm : TaskManager) (name : String) :
    ((∀ t ∈ tm.tasks, rust_to_lowercase t.name ≠ rust_to_lowercase name) →
      tm.remove name = (Except.error (s!"Task {name} not found"), tm)) ∧
    (∀ i (h : i < tm.tasks.length),
      rust_to_lowercase tm.tasks[i].name = rust_to_lowercase name →
      (∀ j (hj : j < tm.tasks.length), j < i →
        rust_to_lowercase tm.tasks[j].name ≠ rust_to_lowercase name) →
      tm.remove name =
        (Except.ok tm.tasks[i], { tasks := tm.tasks.eraseIdx i })) :=
  remove_spec tm name

/-- C6: `pop` on an empty store returns `none` and leaves the store as it
was; on a store holding `l ++ [t]` it returns the most recently appended
task `t` and leaves exactly the earlier tasks `l` in order. -/
theorem pop_last_or_empty (tm : TaskManager) :
    (tm.tasks = [] → tm.pop = (none, tm)) ∧
    (∀ l t, tm.tasks = l ++ [t] → tm.pop = (some t, { tasks := l })) := by
  constructor
  · intro h
    cases tm with
    | mk tasks =>
      subst h
      rfl
  · intro l t h
    cases tm with
    | mk tasks =>
      simp only at h
      subst h
      rw [TaskManager.pop]
      simp

/-- `TaskManager::store_to_file` of src/main.rs.  When the path exists
nothing happens and `Ok(())` is returned; otherwise `File::create` may fail
(returning the error), and a failing `serde_json::to_writer` is silently
discarded (`Err(_) => {}`) so `Ok(())` is returned even though the file is
left with whatever bytes the failed write produced (`env.junk`). -/
def TaskManager.store_to_file (tm : TaskManager) (fs : FS) (path : String)
    (env : Env) : Except String Unit × FS :=
  if (fs.lookup path).isSome then
    (Except.ok (), fs)
  else if env.createFails then
    (Except.error (s!"Error to create file {path}"), fs)
  else if env.writeFails then
    (Except.ok (), (path, env.junk) :: fs)
  else
    (Except.ok (), (path, serialize tm.tasks) :: fs)

/-- `TaskManager::read_from_file` of src/main.rs.  A missing path is a
no-op returning `Ok(())`; an existing path is opened (failure returns the
error), deserialized (failure returns the error before `self.tasks` is
assigned), and on success the whole task sequence is replaced. -/
def TaskManager.read_from_file (tm : TaskManager) (fs : FS) (path : String)
    (env : Env) : Except String Unit × TaskManager :=
  match fs.lookup path with
  | none => (Except.ok (), tm)
  | some content =>
    if env.openFails then
      (Except.error "Error to open file", tm)
    else
      match deserialize content with
      | Except.ok data => (Except.ok (), { tasks := data })
      | Except.error e => (Except.error (s!"Error to read file: {e}"), tm)

/-- C3: storing to a path at which a file already exists leaves the whole
file system unchanged (in particular that file's bytes) and returns
success, whatever the I/O oracle says. -/
theorem store_to_file_existing_noop (tm : TaskManager) (fs : FS)
    (path : String) (env : Env) (c : Json) (h : fs.lookup path = some c) :
    tm.store_to_file fs path env = (Except.ok (), fs) := by
  rw [TaskManager.store_to_file, h]
  rfl

/-- Witness for C3: a concrete store, file system and oracle. -/
theorem store_to_file_existing_noop_witness :
    TaskManager.store_to_file { tasks := [] } [("f", Json.str "old")] "f"
        { createFails := false, writeFails := true, junk := Json.str "j",
          openFails := false, now := 0 } =
      (Except.ok (), [("f", Json.str "old")]) :=
  store_to_file_existing_noop _ _ _ _ (Json.str "old") rfl

/-- C4 counterexample: with no file at the path and a failing write,
`store_to_file` returns success yet the created file does not hold the
serialized store (the write error is swallowed by `Err(_) => {}`). -/
theorem store_to_file_write_failure_cex :
    (TaskManager.store_to_file { tasks := [Task.new "a" "b" Priority.Low 0] }
        [] "f"
        { createFails := false, writeFails := true, junk := Json.str "junk",
          openFails := false, now := 0 }).1 = Except.ok () ∧
    (TaskManager.store_to_file { tasks := [Task.new "a" "b" Priority.Low 0] }
        [] "f"
        { createFails := false, writeFails := true, junk := Json.str "junk",
          openFails := false, now := 0 }).2.lookup "f" ≠
      some (serialize [Task.new "a" "b" Priority.Low 0]) := by
  constructor
  · rfl
  · intro h
    rw [show (TaskManager.store_to_file
        { tasks := [Task.new "a" "b" Priority.Low 0] } [] "f"
        { createFails := false, writeFails := true, junk := Json.str "junk",
          openFails := false, now := 0 }).2.lookup "f" =
        some (Json.str "junk") from rfl] at h
    rw [serialize] at h
    simp only [Option.some.injEq] at h
    exact Json.noConfusion h

/-- C4 as amended: storing to a path with no file either creates the file
holding the full `serialize()` output and returns success, or returns an
error when file creation fails leaving the file system unchanged — but
when the write itself fails, the failure is swallowed and the call still
returns success although the file holds the failed write's bytes rather
than the serialized store. -/
theorem store_to_file_nonexisting_spec (tm : TaskManager) (fs : FS)
    (path : String) (env : Env) (h : fs.lookup path = none) :
    (env.createFails = false → env.writeFails = false →
      tm.store_to_file fs path env =
        (Except.ok (), (path, serialize tm.tasks) :: fs)) ∧
    (env.createFails = true →
      tm.store_to_file fs path env =
        (Except.error (s!"Error to create file {path}"), fs)) ∧
    (env.createFails = false → env.writeFails = true →
      tm.store_to_file fs path env =
        (Except.ok (), (path, env.junk) :: fs)) := by
  refine ⟨?_, ?_, ?_⟩ <;> intro hc <;>
    simp [TaskManager.store_to_file, h, hc]
  all_goals intro hw
  all_goals simp [hw]

/-- Witness for C4's amended theorem: a concrete store with no file at the
path and an oracle on which all three branches are exercised by the
hypotheses that hold. -/
theorem store_to_file_nonexisting_spec_witness :
    TaskManager.store_to_file { tasks := [] } [] "f"
        { createFails := false, writeFails := false, junk := Json.str "j",
          openFails := false, now := 0 } =
      (Except.ok (), [("f", serialize [])]) := by
  have h := store_to_file_nonexisting_spec { tasks := [] } [] "f"
    { createFails := false, writeFails := false, junk := Json.str "j",
      openFails := false, now := 0 } rfl
  exact h.1 rfl rfl

/-- C7: loading from a path with no file returns success and leaves the
in-memory tasks unchanged; loading from an existing file that opens and
deserializes successfully returns success and fully replaces the in-memory
sequence with the deserialized contents. -/
theorem read_from_file_replace_or_noop (tm : TaskManager) (fs : FS)
    (path : String) (env : Env) :
    (fs.lookup path = none →
      tm.read_from_file fs path env = (Except.ok (), tm)) ∧
    (∀ content tasks, fs.lookup path = some content →
      env.openFails = false →
      deserialize content = Except.ok tasks →
      tm.read_from_file fs path env = (Except.ok (), { tasks := tasks })) := by
  constructor
  · intro h
    rw [TaskManager.read_from_file, h]
  · intro content tasks h ho hd
    rw [TaskManager.read_from_file, h]
    simp [ho, hd]

/-- C10: when the file at the path exists but opening it fails, or its
contents fail to deserialize, the load returns an error and the in-memory
task sequence is exactly what it was before the call. -/
theorem read_from_file_failure_preserves (tm : TaskManager) (fs : FS)
    (path : String) (env : Env) (content : Json)
    (h : fs.lookup path = some content)
    (hfail : env.openFails = true ∨ ∃ e, deserialize content = Except.error e) :
    ∃ msg, tm.read_from_file fs path env = (Except.error msg, tm) := by
  rw [TaskManager.read_from_file, h]
  rcases hfail with ho | ⟨e, hd⟩
  · exact ⟨"Error to open file", by simp [ho]⟩
  · cases ho : env.openFails
    · exact ⟨s!"Error to read file: {e}", by simp [hd]⟩
    · exact ⟨"Error to open file", by simp⟩

/-- Witness for C10: a concrete file whose contents are not an array of
tasks, so deserialization fails and the store keeps its task. -/
theorem read_from_file_failure_preserves_witness :
    ∃ msg, TaskManager.read_from_file { tasks := [Task.new "a" "b" Priority.Low 0] }
        [("f", Json.str "garbage")] "f"
        { createFails := false, writeFails := false, junk := Json.str "j",
          openFails := false, now := 0 } =
      (Except.error msg, { tasks := [Task.new "a" "b" Priority.Low 0] }) :=
  read_from_file_failure_preserves _ _ _ _ (Json.str "garbage") rfl
    (Or.inr ⟨"expected array", rfl⟩)

/-- The `ConsoleForTask` struct of src/main.rs. -/
structure ConsoleForTask where
  my_tasks : TaskManager
  deriving DecidableEq

/-- The priority index match inside command "1" of
`ConsoleForTask::process_input`: anything but "1".."4" maps to the
`None` sentinel, which keeps the prompt loop going. -/
def parse_priority (s : String) : Priority :=
  match s with
  | "1" => Priority.Low
  | "2" => Priority.Medium
  | "3" => Priority.High
  | "4" => Priority.VeryHigh
  | _ => Priority.None

/-- The `while priority == Priority::None` loop of command "1": reads
lines until one parses to a real priority; `none` when the input stream
runs out (the `.unwrap()` on a failed read would panic there). -/
def choose_priority : List String → Option (Priority × List String)
  | [] => none
  | s :: rest =>
    let p := parse_priority (rust_trim s)
    if p = Priority.None then choose_priority rest else some (p, rest)

/-- `ConsoleForTask::process_input` of src/main.rs over an explicit input
stream.  The returned tuple is (console, file system, remaining input,
keep-looping flag); `Except.error` is an abrupt termination (a panic from
`.unwrap()` / `.expect(..)`).  A read with no input left is a failed read:
at the top level it is caught and reported (loop continues), inside a
command the source unwraps it, which panics. -/
def process_input (c : ConsoleForTask) (fs : FS) (env : Env) :
    List String → Except String (ConsoleForTask × FS × List String × Bool)
  | [] => Except.ok (c, fs, [], true)
  | command :: afterCommand =>
    match rust_trim command with
    | "h" => Except.ok (c, fs, afterCommand, true)
    | "1" =>
      match afterCommand with
      | name :: afterName =>
        match afterName with
        | description :: afterDescription =>
          match choose_priority afterDescription with
          | some (priority, rest) =>
            Except.ok
              ({ my_tasks := c.my_tasks.push
                  (Task.new (rust_trim name) (rust_trim description) priority
                    env.now) },
               fs, rest, true)
          | none => Except.error "panic: failed input unwrap"
        | [] => Except.error "panic: failed input unwrap"
      | [] => Except.error "panic: failed input unwrap"
    | "2" =>
      Except.ok ({ my_tasks := (c.my_tasks.pop).2 }, fs, afterCommand, true)
    | "3" =>
      match afterCommand with
      | name :: afterName =>
        match c.my_tasks.remove (rust_trim name) with
        | (Except.ok _, tm) =>
          Except.ok ({ my_tasks := tm }, fs, afterName, true)
        | (Except.error e, _) => Except.error e
      | [] => Except.error "panic: failed input unwrap"
    | "4" =>
      match afterCommand with
      | _ :: afterName => Except.ok (c, fs, afterName, true)
      | [] => Except.error "panic: failed input unwrap"
    | "5" => Except.ok (c, fs, afterCommand, true)
    | "6" =>
      Except.ok ({ my_tasks := c.my_tasks.clear }, fs, afterCommand, true)
    | "7" =>
      match afterCommand with
      | path :: afterPath =>
        match c.my_tasks.store_to_file fs (rust_trim path) env with
        | (Except.ok _, fs2) => Except.ok (c, fs2, afterPath, true)
        | (Except.error e, _) => Except.error e
      | [] => Except.error "panic: failed input unwrap"
    | "8" =>
      match afterCommand with
      | path :: afterPath =>
        match c.my_tasks.read_from_file fs (rust_trim path) env with
        | (Except.ok _, tm) =>
          Except.ok ({ my_tasks := tm }, fs, afterPath, true)
        | (Except.error e, _) => Except.error e
      | [] => Except.error "panic: failed input unwrap"
    | "9" => Except.ok (c, fs, afterCommand, false)
    | _ => Except.ok (c, fs, afterCommand, true)

/-- No task in the store carries the `None`/`Unset` sentinel priority. -/
def TaskManager.valid (tm : TaskManager) : Prop :=
  ∀ t ∈ tm.tasks, t.priority ≠ Priority.None

theorem choose_priority_ne_none (inputs : List String) (p : Priority)
    (rest : List String) (h : choose_priority inputs = some (p, rest)) :
    p ≠ Priority.None := by
  induction inputs generalizing rest with
  | nil => exact absurd h (by simp [choose_priority])
  | cons s tail ih =>
    rw [choose_priority] at h
    by_cases hp : parse_priority (rust_trim s) = Priority.None
    · rw [if_pos hp] at h
      exact ih rest h
    · rw [if_neg hp] at h
      cases h
      exact hp

theorem valid_sublist (tm tm2 : TaskManager) (h : tm2.tasks.Sublist tm.tasks)
    (hv : tm.valid) : tm2.valid := by
  intro t ht
  exact hv t (h.subset ht)

theorem valid_remove (tm tm2 : TaskManager) (name : String)
    (r : Except String Task) (h : tm.remove name = (r, tm2))
    (hv : tm.valid) : tm2.valid := by
  rw [TaskManager.remove] at h
  split at h
  · split at h
    · cases h
      exact valid_sublist _ _ (List.eraseIdx_sublist _ _) hv
    · cases h
      exact hv
  · cases h
    exact hv

theorem valid_read_from_file (tm tm2 : TaskManager) (fs : FS) (path : String)
    (env : Env) (r : Except String Unit)
    (hfs : ∀ content tasks, fs.lookup path = some content →
      deserialize content = Except.ok tasks →
      ∀ t ∈ tasks, t.priority ≠ Priority.None)
    (hv : tm.valid) (h : tm.read_from_file fs path env = (r, tm2)) :
    tm2.valid := by
  rw [TaskManager.read_from_file] at h
  split at h
  · cases h
    exact hv
  case _ content hl =>
    split at h
    · cases h
      exact hv
    · split at h
      case _ data hd =>
        cases h
        exact hfs content data hl hd
      case _ e hd =>
        cases h
        exact hv

/-- C8 counterexample: the store invariant is not preserved by every
controller operation.  Starting from a valid (empty) store, the load
command on a file whose content carries the sentinel priority `"None"`
succeeds and leaves a task with the `Unset` sentinel in the store. -/
theorem load_unset_priority_cex :
    process_input { my_tasks := { tasks := [] } }
        [("f", Json.arr [Json.obj [("name", Json.str "x"),
                                   ("description", Json.str "y"),
                                   ("priority", Json.str "None"),
                                   ("add_time", Json.num 0)]])]
        { createFails := false, writeFails := false, junk := Json.str "j",
          openFails := false, now := 0 }
        ["8", "f"] =
      Except.ok
        ({ my_tasks := { tasks := [Task.mk "x" "y" Priority.None 0] } },
         [("f", Json.arr [Json.obj [("name", Json.str "x"),
                                    ("description", Json.str "y"),
                                    ("priority", Json.str "None"),
                                    ("add_time", Json.num 0)]])],
         [], true) ∧
    ¬ TaskManager.valid { tasks := [Task.mk "x" "y" Priority.None 0] } := by
  constructor
  · rfl
  · intro h
    exact h (Task.mk "x" "y" Priority.None 0) (by simp) rfl

/-- C8 as amended: the priority prompt loop of the add command only ever
returns one of the four real priorities, and every controller operation
preserves the all-priorities-real store invariant provided every file the
load command could read deserializes only to tasks with real priorities
(without that proviso the invariant fails: see the counterexample). -/
theorem process_input_priority_invariant :
    (∀ inputs p rest, choose_priority inputs = some (p, rest) →
      p ≠ Priority.None) ∧
    (∀ c fs env inputs out,
      TaskManager.valid c.my_tasks →
      (∀ pth content tasks, List.lookup pth fs = some content →
        deserialize content = Except.ok tasks →
        ∀ t ∈ tasks, t.priority ≠ Priority.None) →
      process_input c fs env inputs = Except.ok out →
      TaskManager.valid out.1.my_tasks) := by
  refine ⟨choose_priority_ne_none, ?_⟩
  intro c fs env inputs out hv hfs hstep
  cases inputs with
  | nil =>
    cases hstep
    exact hv
  | cons command afterCommand =>
    unfold process_input at hstep
    repeat' split at hstep
    all_goals try exact Except.noConfusion hstep
    all_goals cases hstep
    all_goals try exact hv
    -- command "6": clear empties the store
    all_goals try (intro t ht; exact absurd ht (List.not_mem_nil t))
    -- command "2": pop keeps a prefix of the tasks
    all_goals try
      (intro t ht
       exact hv t ((List.dropLast_sublist c.my_tasks.tasks).subset ht))
    -- command "3": remove keeps a subsequence of the tasks
    all_goals try exact valid_remove c.my_tasks _ _ _ ‹_› hv
    -- command "8": load, covered by the file-system proviso
    all_goals try
      exact valid_read_from_file c.my_tasks _ fs _ env _
        (fun content tasks hl hd => hfs _ content tasks hl hd) hv ‹_›
    -- command "1": the appended task's priority comes from choose_priority
    all_goals
      (intro t ht
       rcases List.mem_append.mp ht with hmem | hmem
       · exact hv t hmem
       · rw [List.mem_singleton] at hmem
         subst hmem
         exact choose_priority_ne_none _ _ _ ‹_›)

/-- C9: when the remove command is given a name no stored task matches
case-insensitively, the controller step is an abrupt termination (the
`.unwrap()` panic), not a return to the menu loop. -/
theorem remove_command_aborts (c : ConsoleForTask) (fs : FS) (env : Env)
    (name : String) (rest : List String)
    (h : ∀ t ∈ c.my_tasks.tasks,
      rust_to_lowercase t.name ≠ rust_to_lowercase (rust_trim name)) :
    ∃ msg, process_input c fs env ("3" :: name :: rest) = Except.error msg := by
  have hrm := (remove_spec c.my_tasks (rust_trim name)).1 h
  refine ⟨s!"Task {rust_trim name} not found", ?_⟩
  have hstep : process_input c fs env ("3" :: name :: rest) =
      match c.my_tasks.remove (rust_trim name) with
      | (Except.ok _, tm) => Except.ok ({ my_tasks := tm }, fs, rest, true)
      | (Except.error e, _) => Except.error e := rfl
  rw [hstep, hrm]

/-- Witness for C9: removing from an empty store aborts the program. -/
theorem remove_command_aborts_witness :
    ∃ msg, process_input { my_tasks := { tasks := [] } } []
        { createFails := false, writeFails := false, junk := Json.str "j",
          openFails := false, now := 0 }
        ["3", "x"] = Except.error msg :=
  remove_command_aborts _ _ _ "x" [] (by intro t ht; exact absurd ht (by simp))

end Main
